import Mathlib

/-
  Verification development for `ITMLib::ITMDepthTracker`
  (src/InfiniTAM/ITMLib/Trackers/Interface/ITMDepthTracker.cpp).

  All arithmetic is embedded over exact rationals (and reals where a square
  root is involved); float rounding is not modelled.  Functions and state
  blocks are translated line by line from the source; collaborators whose
  code is not part of the sources (ORUtils matrices, the Cholesky solver,
  the pose class, the cost evaluator) are either modelled from the spec or
  taken as parameters.
-/

namespace InfiniTAM

/-- The per-level tracking regime enumeration of the repository
(`TrackerIterationType`); `TRACKER_ITERATION_NONE` marks a level that the
driver skips. -/
inductive TrackerIterationType where
  | TRACKER_ITERATION_ROTATION
  | TRACKER_ITERATION_TRANSLATION
  | TRACKER_ITERATION_BOTH
  | TRACKER_ITERATION_NONE
deriving DecidableEq

open TrackerIterationType

/-- Modelled from the spec: `ORUtils::Matrix4f` (its header is not among the
sources, only the field assignments in `ITMDepthTracker.cpp` are).  The spec
composes poses as `newInvPose = Tinc · oldInvPose` acting on homogeneous
column vectors with the translation in the fourth column, and the tracker
source stores an incremental transform's translation in the fields
`m30, m31, m32`; this fixes the repository's column-major field convention:
field `m⟨c⟩⟨r⟩` holds the entry at row `r`, column `c`. -/
structure Matrix4f where
  m00 : ℚ
  m01 : ℚ
  m02 : ℚ
  m03 : ℚ
  m10 : ℚ
  m11 : ℚ
  m12 : ℚ
  m13 : ℚ
  m20 : ℚ
  m21 : ℚ
  m22 : ℚ
  m23 : ℚ
  m30 : ℚ
  m31 : ℚ
  m32 : ℚ
  m33 : ℚ
deriving DecidableEq

/-- The mathematical entry at row `r`, column `c` of a `Matrix4f`:
field `m⟨c⟩⟨r⟩` under the column-major field convention. -/
def Matrix4f.entry (M : Matrix4f) (r c : Fin 4) : ℚ :=
  match c, r with
  | 0, 0 => M.m00
  | 0, 1 => M.m01
  | 0, 2 => M.m02
  | 0, 3 => M.m03
  | 1, 0 => M.m10
  | 1, 1 => M.m11
  | 1, 2 => M.m12
  | 1, 3 => M.m13
  | 2, 0 => M.m20
  | 2, 1 => M.m21
  | 2, 2 => M.m22
  | 2, 3 => M.m23
  | 3, 0 => M.m30
  | 3, 1 => M.m31
  | 3, 2 => M.m32
  | 3, 3 => M.m33

/-- Build a `Matrix4f` from a row-column indexed entry function. -/
def Matrix4f.ofEntries (f : Fin 4 → Fin 4 → ℚ) : Matrix4f :=
  ⟨f 0 0, f 1 0, f 2 0, f 3 0,
   f 0 1, f 1 1, f 2 1, f 3 1,
   f 0 2, f 1 2, f 2 2, f 3 2,
   f 0 3, f 1 3, f 2 3, f 3 3⟩

/-- Modelled from the spec: the matrix product of `ORUtils::Matrix4f`
(`newInvPose = Tinc · oldInvPose`), standard row-by-column composition under
the column-major field convention. -/
def Matrix4f.mul (lhs rhs : Matrix4f) : Matrix4f :=
  Matrix4f.ofEntries (fun r c =>
    lhs.entry r 0 * rhs.entry 0 c + lhs.entry r 1 * rhs.entry 1 c +
    lhs.entry r 2 * rhs.entry 2 c + lhs.entry r 3 * rhs.entry 3 c)

/-- The 4×4 identity matrix. -/
def id4 : Matrix4f :=
  Matrix4f.ofEntries (fun r c => if r = c then 1 else 0)

/-- The `step` array built by the `switch (iterationType)` at the top of
`ITMDepthTracker::ApplyDelta` (lines 129-144): the rotation-only case copies
`delta[0..2]` into `step[0..2]` and zeroes the rest, the translation-only
case copies `delta[0..2]` into `step[3..5]` and zeroes the rest, and the
default/`BOTH` case copies all six components. -/
def buildStep (iterationType : TrackerIterationType) (delta : Fin 6 → ℚ) : Fin 6 → ℚ :=
  match iterationType with
  | TRACKER_ITERATION_ROTATION => ![delta 0, delta 1, delta 2, 0, 0, 0]
  | TRACKER_ITERATION_TRANSLATION => ![0, 0, 0, delta 0, delta 1, delta 2]
  | _ => delta

/-- The incremental transform `Tinc` of `ITMDepthTracker::ApplyDelta`
(lines 146-151), transcribed field by field from the source assignments. -/
def Tinc (step : Fin 6 → ℚ) : Matrix4f :=
  { m00 := 1,        m10 := step 2,    m20 := -(step 1), m30 := step 3,
    m01 := -(step 2), m11 := 1,        m21 := step 0,    m31 := step 4,
    m02 := step 1,   m12 := -(step 0), m22 := 1,         m32 := step 5,
    m03 := 0,        m13 := 0,         m23 := 0,         m33 := 1 }

/-- `ITMDepthTracker::ApplyDelta` (lines 125-154): mask the step by the
iteration type, build `Tinc`, and return `Tinc * para_old`. -/
def ApplyDelta (iterationType : TrackerIterationType) (para_old : Matrix4f)
    (delta : Fin 6 → ℚ) : Matrix4f :=
  Matrix4f.mul (Tinc (buildStep iterationType delta)) para_old

/-- The masking described by claim C3's words: the 6-vector
`[rx, ry, rz, tx, ty, tz]` with the translation components zeroed for
`RotationOnly`, the rotation components zeroed for `TranslationOnly`, and
nothing zeroed otherwise. -/
def maskClaim (iterationType : TrackerIterationType) (delta : Fin 6 → ℚ) : Fin 6 → ℚ :=
  match iterationType with
  | TRACKER_ITERATION_ROTATION => ![delta 0, delta 1, delta 2, 0, 0, 0]
  | TRACKER_ITERATION_TRANSLATION => ![0, 0, 0, delta 3, delta 4, delta 5]
  | _ => delta

/-- The incremental transform claimed by the spec (claim C3), row by row:
row 0 = `(1, -rz, ry, tx)`, row 1 = `(rz, 1, -rx, ty)`,
row 2 = `(-ry, rx, 1, tz)`, row 3 = `(0, 0, 0, 1)`. -/
def TincClaimEntries (step : Fin 6 → ℚ) : Fin 4 → Fin 4 → ℚ :=
  ![![1, -(step 2), step 1, step 3],
    ![step 2, 1, -(step 0), step 4],
    ![-(step 1), step 0, 1, step 5],
    ![0, 0, 0, 1]]

/-- The incremental transform the code actually builds, row by row (the
amended form of claim C3): row 0 = `(1, rz, -ry, tx)`,
row 1 = `(-rz, 1, rx, ty)`, row 2 = `(ry, -rx, 1, tz)`,
row 3 = `(0, 0, 0, 1)` — the spec's matrix with the rotation skew
transposed. -/
def TincActualEntries (step : Fin 6 → ℚ) : Fin 4 → Fin 4 → ℚ :=
  ![![1, step 2, -(step 1), step 3],
    ![-(step 2), 1, step 0, step 4],
    ![step 1, -(step 0), 1, step 5],
    ![0, 0, 0, 1]]

/-- Standard product of a row-column indexed 4×4 entry table with a
`Matrix4f`, used to state claims in the spec's row-wise notation. -/
def mulRowCol (A : Fin 4 → Fin 4 → ℚ) (B : Matrix4f) : Matrix4f :=
  Matrix4f.ofEntries (fun r c =>
    A r 0 * B.entry 0 c + A r 1 * B.entry 1 c +
    A r 2 * B.entry 2 c + A r 3 * B.entry 3 c)

/-- The masking of the amended claim C3: the rotation-only case zeroes the
translation components, the translation-only case zeroes the rotation
components but takes its translation values from the first three entries of
`delta` (where the reduced 3×3 solve leaves its solution), and the
default/`BOTH` case keeps all six. -/
def maskAmendedSpec (iterationType : TrackerIterationType) (delta : Fin 6 → ℚ) :
    Fin 6 → ℚ :=
  fun i =>
    match iterationType with
    | TRACKER_ITERATION_ROTATION => if i.val ≤ 2 then delta i else 0
    | TRACKER_ITERATION_TRANSLATION =>
        if i.val ≤ 2 then 0
        else delta ⟨i.val - 3, Nat.lt_of_le_of_lt (Nat.sub_le i.val 3) i.isLt⟩
    | _ => delta i

/-- `ITMDepthTracker::HasConverged` (lines 115-123): sum the squares of all
six step components and compare `sqrt(stepLength) / 6` against the
termination threshold. -/
def HasConverged (terminationThreshold : ℝ) (step : Fin 6 → ℝ) : Prop :=
  Real.sqrt (step 0 * step 0 + step 1 * step 1 + step 2 * step 2 +
             step 3 * step 3 + step 4 * step 4 + step 5 * step 5) / 6 <
    terminationThreshold

/-- The C library rounding used by `SetupLevels` (`round` from `math.h`):
round half away from zero. -/
def cround (q : ℚ) : ℤ :=
  if q < 0 then -(Int.floor (-q + 1/2)) else Int.floor (q + 1/2)

/-- The descending assignment loop shared by both halves of
`ITMDepthTracker::SetupLevels` (lines 42-45 and 50-53): starting from
`val` at the coarsest index and subtracting `step` after each write, produce
the per-level array indexed from the finest level `0` upward. -/
def setupLoopVals (step : ℚ) : ℕ → ℚ → List ℚ
  | 0, _ => []
  | n + 1, val => setupLoopVals step n (val - step) ++ [val]

/-- The two schedule arrays owned by `ITMDepthTracker`
(`noIterationsPerLevel` and `distThresh`), indexed by level id. -/
structure DepthTrackerSchedules where
  noIterationsPerLevel : List ℤ
  distThresh : List ℚ
deriving DecidableEq

/-- `ITMDepthTracker::SetupLevels` (lines 35-55): the iteration schedule is
rewritten only when both endpoints differ from `-1`, the distance-threshold
schedule only when both endpoints are non-negative; each rewritten schedule
linearly interpolates from the coarse endpoint at level
`noHierarchyLevels - 1` down to the fine endpoint at level 0, the iteration
counts through the C `round` function. -/
def SetupLevels (noHierarchyLevels : ℕ) (s : DepthTrackerSchedules)
    (numIterCoarse numIterFine : ℤ)
    (distThreshCoarse distThreshFine : ℚ) : DepthTrackerSchedules :=
  { noIterationsPerLevel :=
      if numIterCoarse ≠ -1 ∧ numIterFine ≠ -1 then
        (setupLoopVals
            (((numIterCoarse : ℚ) - (numIterFine : ℚ)) / ((noHierarchyLevels : ℚ) - 1))
            noHierarchyLevels (numIterCoarse : ℚ)).map cround
      else s.noIterationsPerLevel
    distThresh :=
      if 0 ≤ distThreshCoarse ∧ 0 ≤ distThreshFine then
        setupLoopVals
          ((distThreshCoarse - distThreshFine) / ((noHierarchyLevels : ℚ) - 1))
          noHierarchyLevels distThreshCoarse
      else s.distThresh }

/-- The schedule state established by the `ITMDepthTracker` constructor
(lines 10-24): two freshly allocated arrays of `noHierarchyLevels` cells
(modelled as zero-filled; every cell is overwritten before use) passed
through `SetupLevels(noHierarchyLevels*2, 2, 0.01f, 0.002f)`. -/
def ITMDepthTracker_construct (noHierarchyLevels : ℕ) : DepthTrackerSchedules :=
  SetupLevels noHierarchyLevels
    { noIterationsPerLevel := List.replicate noHierarchyLevels 0
      distThresh := List.replicate noHierarchyLevels 0 }
    (2 * (noHierarchyLevels : ℤ)) 2 (1/100) (1/500)

/-- The transient optimization state of one `TrackCamera` level
(lines 161-184): the caller-owned pose `pose_d` (of an abstract pose type
`P`), the working inverse pose, the rollback pose, the last accepted error
and valid count, the running averaged gradient and Hessian, and the damping
factor. -/
structure LMState (P : Type) where
  pose_d : P
  approxInvPose : Matrix4f
  lastKnownGoodPose : P
  f_old : ℚ
  noValidPoints_old : ℤ
  hessian_good : Fin 6 → Fin 6 → ℚ
  nabla_good : Fin 6 → ℚ
  lambda : ℚ
deriving DecidableEq

/-- The accept/reject block of `TrackCamera`'s inner iteration
(lines 191-204), as a function of the evaluation results.  `GetInvM`
abstracts `ORUtils::SE3Pose::GetInvM`, whose code is not among the sources.
On rejection the pose is restored from `lastKnownGoodPose`, the working
inverse pose is recomputed from it, and `lambda` is multiplied by 10; on
acceptance the rollback pose, error, valid count and per-point averaged
gradient/Hessian are refreshed and `lambda` is divided by 10. -/
def acceptOrRejectStep {P : Type} (GetInvM : P → Matrix4f) (s : LMState P)
    (noValidPoints_new : ℤ) (f_new : ℚ)
    (nabla_new : Fin 6 → ℚ) (hessian_new : Fin 6 → Fin 6 → ℚ) : LMState P :=
  if noValidPoints_new ≤ 0 ∨ s.f_old < f_new then
    { s with pose_d := s.lastKnownGoodPose
             approxInvPose := GetInvM s.lastKnownGoodPose
             lambda := s.lambda * 10 }
  else
    { s with lastKnownGoodPose := s.pose_d
             f_old := f_new
             noValidPoints_old := noValidPoints_new
             hessian_good := fun i j => hessian_new i j / (noValidPoints_new : ℚ)
             nabla_good := fun i => nabla_new i / (noValidPoints_new : ℚ)
             lambda := s.lambda / 10 }

/-- The quality classification at the end of `TrackCamera` (lines 269-280),
as a function of the already-computed `finalResidual`, `percentageInliers`
and `det_norm`.  The source compares `det_norm` against
`thresholdDet = exp(-36.0f)`, an irrational constant, so the threshold is a
parameter here; the classification structure does not depend on its
value. -/
def assessPoseQuality (thresholdDet finalResidual percentageInliers det_norm : ℚ) : ℚ :=
  let q1 : ℚ :=
    if finalResidual < 1/4 ∧ percentageInliers > 7/10 then 1
    else if finalResidual < 1/4 ∨ percentageInliers > 7/10 then 1/2
    else 0
  let q2 : ℚ := if percentageInliers < 3/10 then 0 else q1
  if det_norm < thresholdDet then (if q2 > 1/2 then 1/2 else q2) else q2

/-- The classification described by claim C2's words: Good if both
conditions hold, Uncertain if exactly one holds, Poor otherwise; then an
inlier fraction below 0.3 forces Poor, and a small determinant lowers a
Good result to Uncertain but never changes an Uncertain or Poor result. -/
def specQuality (thresholdDet finalResidual percentageInliers det_norm : ℚ) : ℚ :=
  let base : ℚ :=
    if finalResidual < 1/4 ∧ percentageInliers > 7/10 then 1
    else if (finalResidual < 1/4 ∧ ¬ percentageInliers > 7/10) ∨
            (¬ finalResidual < 1/4 ∧ percentageInliers > 7/10) then 1/2
    else 0
  let afterInlier : ℚ := if percentageInliers < 3/10 then 0 else base
  if det_norm < thresholdDet ∧ afterInlier = 1 then 1/2 else afterInlier

/-- The value of the member `iterationType` after `TrackCamera`'s level loop
(lines 173-176): `SetEvaluationParams(levelId)` is called for every
`levelId` from `noLevels - 1` down to `0` — before the
`TRACKER_ITERATION_NONE` check — and each call overwrites the member with
that level's regime. -/
def iterationTypeAfterLoop (levelTypes : List TrackerIterationType) :
    Option TrackerIterationType :=
  (List.range levelTypes.length).reverse.foldl
    (fun _ levelId => levelTypes.get? levelId) none

/-- The regime of the last level actually processed (not skipped as
`TRACKER_ITERATION_NONE`) by the coarse-to-fine loop, as named by claim C4:
the non-`NONE` level with the smallest level id. -/
def lastProcessedIterationType (levelTypes : List TrackerIterationType) :
    Option TrackerIterationType :=
  levelTypes.find? (fun t => decide (t ≠ TRACKER_ITERATION_NONE))

/-- The `det_norm` computation at the end of `TrackCamera` (lines 249-254):
zero unless the `iterationType` member left by the level loop equals
`TRACKER_ITERATION_BOTH`, in which case the last accepted averaged Hessian
is scaled entrywise by `noValidPoints_old / noValidPointsMax` and passed to
the Cholesky determinant.  `choleskyDeterminant` abstracts
`ORUtils::Cholesky::Determinant`, whose code is not among the sources. -/
def detNormOfTracking (levelTypes : List TrackerIterationType)
    (hessian_good : Fin 6 → Fin 6 → ℚ) (noValidPoints_old noValidPointsMax : ℤ)
    (choleskyDeterminant : (Fin 6 → Fin 6 → ℚ) → ℚ) : ℚ :=
  if iterationTypeAfterLoop levelTypes = some TRACKER_ITERATION_BOTH then
    choleskyDeterminant
      (fun i j => hessian_good i j * ((noValidPoints_old : ℚ) / (noValidPointsMax : ℚ)))
  else 0

/-- One level of the view hierarchy
(`ITMTemplatedHierarchyLevel<ITMFloatImage>`): a depth buffer of an abstract
type `D`, the scaled intrinsics, and the level's tracking regime. -/
structure ITMTemplatedHierarchyLevel (D : Type) where
  depth : D
  intrinsics : Fin 4 → ℚ
  iterationType : TrackerIterationType
deriving DecidableEq

/-- One level of the scene hierarchy (`ITMSceneHierarchyLevel`): point and
normal buffers of an abstract type `S` plus the scaled intrinsics. -/
structure ITMSceneHierarchyLevel (S : Type) where
  pointsMap : S
  normalsMap : S
  intrinsics : Fin 4 → ℚ
deriving DecidableEq

/-- The members bound by `ITMDepthTracker::SetEvaluationParams`
(lines 88-94). -/
structure EvalParams (D S : Type) where
  levelId : ℕ
  iterationType : TrackerIterationType
  sceneHierarchyLevel : ITMSceneHierarchyLevel S
  viewHierarchyLevel : ITMTemplatedHierarchyLevel D
deriving DecidableEq

/-- `ITMDepthTracker::SetEvaluationParams` (lines 88-94): bind the level id,
the level's regime, view level `levelId` — and scene level `0`, whatever
`levelId` is. -/
def SetEvaluationParams {D S : Type} (viewLevels : List (ITMTemplatedHierarchyLevel D))
    (sceneLevels : List (ITMSceneHierarchyLevel S)) (levelId : ℕ) :
    Option (EvalParams D S) :=
  match viewLevels.get? levelId, sceneLevels.get? 0 with
  | some vl, some s0 =>
      some { levelId := levelId, iterationType := vl.iterationType,
             sceneHierarchyLevel := s0, viewHierarchyLevel := vl }
  | _, _ => none

/-- One view-hierarchy update of `PrepareForEvaluation`'s loop body
(lines 77-79): level `i` receives the hole-aware subsampling of level
`i - 1`'s depth and half its intrinsics. -/
def viewStep {D : Type} (filterSubsampleWithHoles : D → D)
    (vs : List (ITMTemplatedHierarchyLevel D)) (i : ℕ) :
    List (ITMTemplatedHierarchyLevel D) :=
  match vs.get? (i - 1), vs.get? i with
  | some prev, some cur =>
      vs.set i { depth := filterSubsampleWithHoles prev.depth
                 intrinsics := fun k => prev.intrinsics k * (1/2)
                 iterationType := cur.iterationType }
  | _, _ => vs

/-- One scene-hierarchy update of `PrepareForEvaluation`'s loop body
(lines 81-84): only the intrinsics of level `i` are rewritten (to half of
level `i - 1`'s); the two `FilterSubsampleWithHoles` calls on the scene
points and normals are commented out in the source. -/
def sceneStep {S : Type} (ss : List (ITMSceneHierarchyLevel S)) (i : ℕ) :
    List (ITMSceneHierarchyLevel S) :=
  match ss.get? (i - 1), ss.get? i with
  | some prev, some cur =>
      ss.set i { pointsMap := cur.pointsMap
                 normalsMap := cur.normalsMap
                 intrinsics := fun k => prev.intrinsics k * (1/2) }
  | _, _ => ss

/-- `ITMDepthTracker::PrepareForEvaluation` (lines 73-86): for `i` from 1 to
`noLevels - 1`, rebuild view level `i` from view level `i - 1` and rescale
scene level `i`'s intrinsics from scene level `i - 1`'s. -/
def PrepareForEvaluation {D S : Type} (filterSubsampleWithHoles : D → D)
    (vs : List (ITMTemplatedHierarchyLevel D))
    (ss : List (ITMSceneHierarchyLevel S)) :
    List (ITMTemplatedHierarchyLevel D) × List (ITMSceneHierarchyLevel S) :=
  (List.range' 1 (vs.length - 1)).foldl
    (fun st i => (viewStep filterSubsampleWithHoles st.1 i, sceneStep st.2 i))
    (vs, ss)

/-- Claim C2: after all levels, the tracking quality written by
`TrackCamera` is exactly the spec's classification — Good (1.0) when both
the residual and inlier conditions hold, Uncertain (0.5) when exactly one
holds, Poor (0.0) otherwise, with an inlier fraction below 0.3 forcing Poor
unconditionally and a determinant below the threshold lowering only a Good
result to Uncertain. -/
theorem trackCamera_quality_matches_spec (t r p d : ℚ) :
    assessPoseQuality t r p d = specQuality t r p d := by
  unfold assessPoseQuality specQuality
  split_ifs <;> simp_all <;> (try (split_ifs <;> simp_all)) <;>
    (try (casesm* _ ∨ _, _ ∧ _)) <;> (try simp_all) <;> (try linarith)

/-- Claim C3, counterexample: `ApplyDelta` does not return
`TincSpec · oldInvPose` for the spec's incremental matrix.  With
`delta = (0,0,1,0,0,0)` and `iterationType = BOTH` the code's result (at the
identity old pose) has `rz` at row 0, column 1 where the spec's matrix has
`-rz`; and with `iterationType = TRANSLATION` and `delta = (1,2,3,4,5,6)`
the code takes the translation from `delta[0..2]`, not from the masked
`delta[3..5]`. -/
theorem applyDelta_claim_counterexample :
    ApplyDelta TRACKER_ITERATION_BOTH id4 ![0, 0, 1, 0, 0, 0] ≠
      mulRowCol (TincClaimEntries (maskClaim TRACKER_ITERATION_BOTH ![0, 0, 1, 0, 0, 0])) id4 ∧
    ApplyDelta TRACKER_ITERATION_TRANSLATION id4 ![1, 2, 3, 4, 5, 6] ≠
      mulRowCol (TincClaimEntries (maskClaim TRACKER_ITERATION_TRANSLATION ![1, 2, 3, 4, 5, 6])) id4 := by
  constructor <;>
    (simp only [ApplyDelta, Matrix4f.mul, mulRowCol, Tinc, buildStep, maskClaim,
      TincClaimEntries, Matrix4f.ofEntries, id4, Matrix4f.entry, ne_eq, Matrix4f.mk.injEq]
     norm_num)

/-- Claim C3, amended: `ApplyDelta` first builds the masked step — zeroing
the translation components for rotation-only, zeroing the rotation
components for translation-only while taking the translation values from
`delta[0..2]`, keeping all six otherwise — and returns
`Tinc · oldInvPose` where `Tinc` is the spec's matrix with the rotation
skew transposed: row 0 = `(1, rz, -ry, tx)`, row 1 = `(-rz, 1, rx, ty)`,
row 2 = `(ry, -rx, 1, tz)`, row 3 = `(0, 0, 0, 1)`. -/
theorem applyDelta_characterization (iterationType : TrackerIterationType)
    (para_old : Matrix4f) (delta : Fin 6 → ℚ) :
    ApplyDelta iterationType para_old delta =
      mulRowCol (TincActualEntries (maskAmendedSpec iterationType delta)) para_old := by
  cases iterationType <;> rfl

/-- Claim C8, counterexample: with `iterationType = RotationOnly`, the
translation column of the composed pose is not the old translation column:
at the old inverse pose with translation `(1,0,0)` and a rotation step
`rz = 1`, the composed pose's translation column has `-1` in its second
component where the old pose has `0`. -/
theorem applyDelta_rotation_translation_counterexample :
    (ApplyDelta TRACKER_ITERATION_ROTATION
        (Matrix4f.ofEntries ![![1, 0, 0, 1], ![0, 1, 0, 0], ![0, 0, 1, 0], ![0, 0, 0, 1]])
        ![0, 0, 1, 0, 0, 0]).entry 1 3 ≠
      (Matrix4f.ofEntries ![![1, 0, 0, 1], ![0, 1, 0, 0], ![0, 0, 1, 0], ![0, 0, 0, 1]]).entry 1 3 := by
  norm_num [ApplyDelta, Matrix4f.mul, Tinc, buildStep, Matrix4f.ofEntries, Matrix4f.entry]

/-- Claim C8, amended: for every old inverse pose with an affine bottom row,
`ApplyDelta` with `iterationType = TranslationOnly` leaves the rotation
block of the composed pose equal to the old rotation block; with
`iterationType = RotationOnly` the translation column of the composed pose
is the incremental first-order rotation applied to the old translation
column — so it equals the old translation column whenever the old
translation is zero, but not in general. -/
theorem applyDelta_block_preservation (para_old : Matrix4f) (delta : Fin 6 → ℚ)
    (h30 : para_old.entry 3 0 = 0) (h31 : para_old.entry 3 1 = 0)
    (h32 : para_old.entry 3 2 = 0) (h33 : para_old.entry 3 3 = 1) :
    (∀ r c : Fin 4, r.val < 3 → c.val < 3 →
      (ApplyDelta TRACKER_ITERATION_TRANSLATION para_old delta).entry r c =
        para_old.entry r c) ∧
    (∀ r : Fin 4, r.val < 3 →
      (ApplyDelta TRACKER_ITERATION_ROTATION para_old delta).entry r 3 =
        (Tinc (buildStep TRACKER_ITERATION_ROTATION delta)).entry r 0 * para_old.entry 0 3 +
        (Tinc (buildStep TRACKER_ITERATION_ROTATION delta)).entry r 1 * para_old.entry 1 3 +
        (Tinc (buildStep TRACKER_ITERATION_ROTATION delta)).entry r 2 * para_old.entry 2 3) ∧
    (para_old.entry 0 3 = 0 → para_old.entry 1 3 = 0 → para_old.entry 2 3 = 0 →
      ∀ r : Fin 4,
        (ApplyDelta TRACKER_ITERATION_ROTATION para_old delta).entry r 3 =
          para_old.entry r 3) := by
  refine ⟨?_, ?_, ?_⟩
  · intro r c hr hc
    fin_cases r <;> fin_cases c <;>
      simp_all [ApplyDelta, Matrix4f.mul, Tinc, buildStep, Matrix4f.ofEntries,
        Matrix4f.entry] <;> (try rfl) <;> (try ring)
  · intro r hr
    fin_cases r <;>
      simp_all [ApplyDelta, Matrix4f.mul, Tinc, buildStep, Matrix4f.ofEntries,
        Matrix4f.entry] <;> (try rfl) <;> (try ring)
  · intro ht0 ht1 ht2 r
    fin_cases r <;>
      simp_all [ApplyDelta, Matrix4f.mul, Tinc, buildStep, Matrix4f.ofEntries,
        Matrix4f.entry] <;> (try rfl) <;> (try ring)

/-- Witness for the amended claim C8 at a concrete pose and step. -/
theorem applyDelta_block_preservation_witness :
    (ApplyDelta TRACKER_ITERATION_TRANSLATION id4 ![1, 2, 3, 4, 5, 6]).entry 0 0 =
      id4.entry 0 0 ∧
    (ApplyDelta TRACKER_ITERATION_ROTATION id4 ![1, 2, 3, 4, 5, 6]).entry 1 3 =
      id4.entry 1 3 := by
  have h := applyDelta_block_preservation id4 ![1, 2, 3, 4, 5, 6]
    (by decide) (by decide) (by decide) (by decide)
  refine ⟨h.1 0 0 (by decide) (by decide), ?_⟩
  exact h.2.2 (by decide) (by decide) (by decide) 1

/-- Claim C1: in the accept/reject block of `TrackCamera`'s inner iteration,
an evaluation with `validCount ≤ 0` or `f_new > f_old` restores the pose
from the last-known-good pose and multiplies `lambda` by exactly 10, leaving
`f_old`, the accepted valid count and the averaged gradient/Hessian
untouched; otherwise the last-known-good pose becomes the current pose,
`f_old := f_new`, the averaged gradient and Hessian become
`gradient/validCount` and `hessian/validCount`, and `lambda` is divided by
exactly 10. -/
theorem trackCamera_accept_reject {P : Type} (GetInvM : P → Matrix4f) (s : LMState P)
    (noValidPoints_new : ℤ) (f_new : ℚ)
    (nabla_new : Fin 6 → ℚ) (hessian_new : Fin 6 → Fin 6 → ℚ) :
    ((noValidPoints_new ≤ 0 ∨ f_new > s.f_old) →
      acceptOrRejectStep GetInvM s noValidPoints_new f_new nabla_new hessian_new =
        { s with pose_d := s.lastKnownGoodPose
                 approxInvPose := GetInvM s.lastKnownGoodPose
                 lambda := s.lambda * 10 }) ∧
    (¬ (noValidPoints_new ≤ 0 ∨ f_new > s.f_old) →
      acceptOrRejectStep GetInvM s noValidPoints_new f_new nabla_new hessian_new =
        { s with lastKnownGoodPose := s.pose_d
                 f_old := f_new
                 noValidPoints_old := noValidPoints_new
                 hessian_good := fun i j => hessian_new i j / (noValidPoints_new : ℚ)
                 nabla_good := fun i => nabla_new i / (noValidPoints_new : ℚ)
                 lambda := s.lambda / 10 }) := by
  constructor <;> intro h <;> simp only [acceptOrRejectStep, gt_iff_lt] at h ⊢
  · rw [if_pos h]
  · rw [if_neg h]

/-- Witness for claim C1: one rejected and one accepted evaluation at a
concrete state. -/
theorem trackCamera_accept_reject_witness :
    acceptOrRejectStep (fun _ : ℤ => id4)
        ⟨1, id4, 2, 3, 4, (fun _ _ => 5), (fun _ => 6), 7⟩ 0 9
        (fun _ => 8) (fun _ _ => 8) =
      ⟨2, id4, 2, 3, 4, (fun _ _ => 5), (fun _ => 6), 70⟩ ∧
    acceptOrRejectStep (fun _ : ℤ => id4)
        ⟨1, id4, 2, 3, 4, (fun _ _ => 5), (fun _ => 6), 7⟩ 4 2
        (fun _ => 8) (fun _ _ => 8) =
      ⟨1, id4, 1, 2, 4, (fun _ _ => 8 / ((4 : ℤ) : ℚ)), (fun _ => 8 / ((4 : ℤ) : ℚ)), 7 / 10⟩ := by
  constructor
  · have h := (trackCamera_accept_reject (fun _ : ℤ => id4)
      ⟨1, id4, 2, 3, 4, (fun _ _ => 5), (fun _ => 6), 7⟩ 0 9
      (fun _ => 8) (fun _ _ => 8)).1 (by norm_num)
    rw [h]
    norm_num [LMState.mk.injEq]
  · have h := (trackCamera_accept_reject (fun _ : ℤ => id4)
      ⟨1, id4, 2, 3, 4, (fun _ _ => 5), (fun _ => 6), 7⟩ 4 2
      (fun _ => 8) (fun _ _ => 8)).2 (by norm_num)
    rw [h]

/-- Claim C7: `HasConverged` holds exactly when the square root of the sum
of the squares of all six step components, divided by 6, is strictly below
the termination threshold; at exact equality it does not hold. -/
theorem hasConverged_iff_strict (terminationThreshold : ℝ) (step : Fin 6 → ℝ) :
    (HasConverged terminationThreshold step ↔
      Real.sqrt (step 0 ^ 2 + step 1 ^ 2 + step 2 ^ 2 +
                 step 3 ^ 2 + step 4 ^ 2 + step 5 ^ 2) / 6 <
        terminationThreshold) ∧
    (Real.sqrt (step 0 ^ 2 + step 1 ^ 2 + step 2 ^ 2 +
                step 3 ^ 2 + step 4 ^ 2 + step 5 ^ 2) / 6 =
        terminationThreshold →
      ¬ HasConverged terminationThreshold step) := by
  have hsq : step 0 * step 0 + step 1 * step 1 + step 2 * step 2 +
      step 3 * step 3 + step 4 * step 4 + step 5 * step 5 =
      step 0 ^ 2 + step 1 ^ 2 + step 2 ^ 2 + step 3 ^ 2 + step 4 ^ 2 + step 5 ^ 2 := by
    ring
  constructor
  · unfold HasConverged
    rw [hsq]
  · intro h hc
    unfold HasConverged at hc
    rw [hsq, h] at hc
    exact lt_irrefl _ hc

/-- Witness for claim C7: a zero step converges for threshold 1, and a step
of norm 6 (boundary value for threshold 1) does not. -/
theorem hasConverged_iff_strict_witness :
    HasConverged 1 (fun _ => 0) ∧ ¬ HasConverged 1 ![6, 0, 0, 0, 0, 0] := by
  constructor
  · exact (hasConverged_iff_strict 1 (fun _ => 0)).1.mpr
      (by norm_num [Real.sqrt_zero])
  · apply (hasConverged_iff_strict 1 ![6, 0, 0, 0, 0, 0]).2
    have e : (![6, 0, 0, 0, 0, 0] : Fin 6 → ℝ) 0 ^ 2 +
        (![6, 0, 0, 0, 0, 0] : Fin 6 → ℝ) 1 ^ 2 +
        (![6, 0, 0, 0, 0, 0] : Fin 6 → ℝ) 2 ^ 2 +
        (![6, 0, 0, 0, 0, 0] : Fin 6 → ℝ) 3 ^ 2 +
        (![6, 0, 0, 0, 0, 0] : Fin 6 → ℝ) 4 ^ 2 +
        (![6, 0, 0, 0, 0, 0] : Fin 6 → ℝ) 5 ^ 2 = 6 ^ 2 := by
      norm_num [show (![6, 0, 0, 0, 0, 0] : Fin 6 → ℝ) 5 = 0 from rfl]
    rw [e, Real.sqrt_sq (by norm_num : (0 : ℝ) ≤ 6)]
    norm_num

/-- A fold that ignores its accumulator keeps only the last assignment. -/
theorem foldl_overwrite {α β : Type} (g : α → β) :
    ∀ (l : List α) (a : β), l.foldl (fun _ x => g x) a = (l.getLast?).elim a g := by
  intro l
  induction l with
  | nil => intro a; rfl
  | cons x t ih =>
      intro a
      cases t with
      | nil => rfl
      | cons y u =>
          rcases e : (y :: u).getLast? with _ | z
          · simp at e
          · rw [List.foldl_cons, ih, List.getLast?_cons_cons, e]
            rfl

/-- The `iterationType` member left by `TrackCamera`'s level loop is the
finest level's regime: the loop's final `SetEvaluationParams(0)` call
overwrites whatever the coarser levels stored. -/
theorem iterationTypeAfterLoop_eq_head (levelTypes : List TrackerIterationType)
    (h : levelTypes ≠ []) :
    iterationTypeAfterLoop levelTypes = levelTypes.get? 0 := by
  unfold iterationTypeAfterLoop
  rw [foldl_overwrite, List.getLast?_reverse]
  cases levelTypes with
  | nil => exact absurd rfl h
  | cons x t => simp [List.range_succ_eq_map]

/-- Claim C4, counterexample: with level regimes `[NONE, BOTH]` (finest
level skipped, coarsest processed with `BOTH`), the last processed level's
regime is `BOTH`, yet `det_norm` is left at `0` — even with a Cholesky
determinant that returns 1 on every input — because the code tests the
member left by `SetEvaluationParams(0)`, which is the finest level's
`NONE`. -/
theorem detNorm_lastProcessed_counterexample :
    lastProcessedIterationType [TRACKER_ITERATION_NONE, TRACKER_ITERATION_BOTH] =
      some TRACKER_ITERATION_BOTH ∧
    detNormOfTracking [TRACKER_ITERATION_NONE, TRACKER_ITERATION_BOTH]
      (fun _ _ => 1) 1 1 (fun _ => 1) = 0 ∧
    (1 : ℚ) ≠ 0 := by
  refine ⟨by decide, ?_, by norm_num⟩
  have e : iterationTypeAfterLoop [TRACKER_ITERATION_NONE, TRACKER_ITERATION_BOTH] =
      some TRACKER_ITERATION_NONE := by
    rw [iterationTypeAfterLoop_eq_head _ (by simp)]
    rfl
  unfold detNormOfTracking
  rw [e, if_neg (by simp)]

/-- Claim C4, amended: `det_norm` is computed if and only if the finest
level's (`levelId = 0`) regime equals `BOTH` — the member tested by the
code is the one left by the loop's last `SetEvaluationParams(0)` call,
whether or not level 0 was processed; in that case the last accepted
averaged Hessian is scaled entrywise by
`noValidPoints_old / noValidPointsMax` and `det_norm` is its Cholesky
determinant, and otherwise `det_norm = 0`. -/
theorem detNorm_finestLevel_characterization (levelTypes : List TrackerIterationType)
    (hessian_good : Fin 6 → Fin 6 → ℚ) (noValidPoints_old noValidPointsMax : ℤ)
    (choleskyDeterminant : (Fin 6 → Fin 6 → ℚ) → ℚ) (h : levelTypes ≠ []) :
    detNormOfTracking levelTypes hessian_good noValidPoints_old noValidPointsMax
        choleskyDeterminant =
      if levelTypes.get? 0 = some TRACKER_ITERATION_BOTH then
        choleskyDeterminant
          (fun i j => hessian_good i j *
            ((noValidPoints_old : ℚ) / (noValidPointsMax : ℚ)))
      else 0 := by
  unfold detNormOfTracking
  rw [iterationTypeAfterLoop_eq_head levelTypes h]

/-- Witness for the amended claim C4 at a concrete two-level regime whose
finest level uses `BOTH`. -/
theorem detNorm_finestLevel_witness :
    detNormOfTracking [TRACKER_ITERATION_BOTH, TRACKER_ITERATION_ROTATION]
      (fun _ _ => 3) 1 2 (fun H => H 0 0) =
      (if ([TRACKER_ITERATION_BOTH, TRACKER_ITERATION_ROTATION].get? 0 =
          some TRACKER_ITERATION_BOTH) then
        ((fun H : Fin 6 → Fin 6 → ℚ => H 0 0)
          (fun _ _ => 3 * ((1 : ℚ) / (2 : ℚ))))
      else 0) :=
  detNorm_finestLevel_characterization
    [TRACKER_ITERATION_BOTH, TRACKER_ITERATION_ROTATION]
    (fun _ _ => 3) 1 2 (fun H => H 0 0) (by simp)

/-- Claim C5, counterexample: a negative iteration-count endpoint different
from the sentinel `-1` does not leave `noIterationsPerLevel` unchanged —
`SetupLevels` with `numIterCoarse = -2` over two levels rewrites the array
`[7, 7]` to `[2, -2]`. -/
theorem setupLevels_negative_iter_counterexample :
    (SetupLevels 2 ⟨[7, 7], [1, 1]⟩ (-2) 2 1 1).noIterationsPerLevel = [2, -2] ∧
    ((-2 : ℤ) < 0) ∧ ([2, -2] : List ℤ) ≠ [7, 7] := by
  refine ⟨?_, by norm_num, by simp⟩
  norm_num [SetupLevels, setupLoopVals, cround]

/-- Claim C5, amended: an iteration-count endpoint equal to the sentinel
`-1` leaves `noIterationsPerLevel` unchanged (the guard tests `!= -1`, so
other negative values do rewrite it), and a negative distance-threshold
endpoint leaves `distThresh` unchanged; the two schedules are guarded
independently, so the other schedule may still be rewritten. -/
theorem setupLevels_sentinel_guards (noHierarchyLevels : ℕ)
    (s : DepthTrackerSchedules) (numIterCoarse numIterFine : ℤ)
    (distThreshCoarse distThreshFine : ℚ) :
    ((numIterCoarse = -1 ∨ numIterFine = -1) →
      (SetupLevels noHierarchyLevels s numIterCoarse numIterFine
          distThreshCoarse distThreshFine).noIterationsPerLevel =
        s.noIterationsPerLevel) ∧
    ((distThreshCoarse < 0 ∨ distThreshFine < 0) →
      (SetupLevels noHierarchyLevels s numIterCoarse numIterFine
          distThreshCoarse distThreshFine).distThresh = s.distThresh) := by
  constructor
  · intro h
    simp only [SetupLevels]
    rw [if_neg (by tauto)]
  · intro h
    simp only [SetupLevels]
    rw [if_neg (by rintro ⟨h1, h2⟩; rcases h with h | h <;> linarith)]

/-- Witness for the amended claim C5: a sentinel iteration endpoint and a
negative threshold endpoint leave both schedules of a concrete state
untouched. -/
theorem setupLevels_sentinel_guards_witness :
    (SetupLevels 2 ⟨[7, 7], [1, 1]⟩ (-1) 5 (-1) 1).noIterationsPerLevel = [7, 7] ∧
    (SetupLevels 2 ⟨[7, 7], [1, 1]⟩ (-1) 5 (-1) 1).distThresh = [1, 1] := by
  constructor
  · exact (setupLevels_sentinel_guards 2 ⟨[7, 7], [1, 1]⟩ (-1) 5 (-1) 1).1
      (Or.inl rfl)
  · exact (setupLevels_sentinel_guards 2 ⟨[7, 7], [1, 1]⟩ (-1) 5 (-1) 1).2
      (Or.inl (by norm_num))

/-- The assignment loop writes one value per level. -/
theorem setupLoopVals_length (step : ℚ) :
    ∀ (n : ℕ) (v : ℚ), (setupLoopVals step n v).length = n := by
  intro n
  induction n with
  | zero => intro v; rfl
  | succ m ih => intro v; simp [setupLoopVals, ih]

/-- Closed form of the assignment loop: level `l` receives the start value
minus `n - 1 - l` times the step (the loop writes the coarsest index first
and subtracts the step before each further write). -/
theorem setupLoopVals_get? (step : ℚ) :
    ∀ (n : ℕ) (v : ℚ) (l : ℕ), l < n →
      (setupLoopVals step n v).get? l = some (v - ((n - 1 - l : ℕ) : ℚ) * step) := by
  intro n
  induction n with
  | zero => intro v l hl; omega
  | succ m ih =>
      intro v l hl
      unfold setupLoopVals
      rcases Nat.lt_or_ge l m with h | h
      · rw [List.get?_append (by rw [setupLoopVals_length]; exact h), ih (v - step) l h]
        have e1 : ((m + 1 - 1 - l : ℕ) : ℚ) = ((m - 1 - l : ℕ) : ℚ) + 1 := by
          have e0 : m + 1 - 1 - l = (m - 1 - l) + 1 := by omega
          rw [e0]
          push_cast
          ring
        rw [e1]
        congr 1
        ring
      · have hlm : l = m := by omega
        subst hlm
        rw [List.get?_append_right (by rw [setupLoopVals_length])]
        rw [setupLoopVals_length]
        have e0 : l + 1 - 1 - l = 0 := by omega
        rw [e0]
        simp

/-- The C rounding is the identity on integers. -/
theorem cround_intCast (m : ℤ) : cround (m : ℚ) = m := by
  have hfloor : ∀ z : ℤ, Int.floor ((z : ℚ) + 1/2) = z := by
    intro z
    rw [Int.floor_int_add]
    norm_num
  unfold cround
  split_ifs with h
  · rw [show -(m : ℚ) = ((-m : ℤ) : ℚ) by push_cast; ring, hfloor]
    ring
  · exact hfloor m

/-- Claim C6, counterexample: `SetupLevels(3, 2, ...)` over three levels
stores iteration counts `[2, 3, 3]` (levels 0, 1, 2): levels 2 and 1 both
receive 3, so the stored counts neither decrease by the uniform step
`(3 - 2)/(3 - 1) = 1/2` per finer level nor are strictly monotone, although
the coarse endpoint 3 exceeds the fine endpoint 2 — the interpolant 2.5 at
level 1 is rounded half away from zero to 3. -/
theorem setupLevels_rounding_counterexample :
    (SetupLevels 3 ⟨[9, 9, 9], [1, 1, 1]⟩ 3 2 (-1) (-1)).noIterationsPerLevel = [2, 3, 3] ∧
    ((3 : ℚ) - 2) / ((3 : ℚ) - 1) = 1/2 ∧ ¬ ((3 : ℤ) < 3) := by
  refine ⟨?_, by norm_num, by norm_num⟩
  norm_num [SetupLevels, setupLoopVals, cround]

/-- Claim C6, amended: `SetupLevels(10, 2, 0.01, 0.002)` with 5 levels
assigns iteration counts 10, 8, 6, 4, 2 to levels 4 down to 0 and thresholds
0.01 down to 0.002 in uniform steps.  In general, for non-negative endpoints
and at least two levels, level `L - 1` receives the coarse endpoint and
level 0 the fine endpoint of both schedules; the distance thresholds
decrease exactly by `(coarse - fine)/(L - 1)` per finer level and are
strictly monotone when coarse exceeds fine, while the stored iteration
counts are the half-away-from-zero roundings of the uniformly decreasing
interpolant (and hence uniform and strictly monotone only when the
interpolant stays integral, as in the 5-level example). -/
theorem setupLevels_interpolated (n : ℕ) (s : DepthTrackerSchedules)
    (numIterCoarse numIterFine : ℤ) (distThreshCoarse distThreshFine : ℚ)
    (hn : 2 ≤ n) (hic : numIterCoarse ≠ -1) (hfi : numIterFine ≠ -1)
    (htc : 0 ≤ distThreshCoarse) (htf : 0 ≤ distThreshFine) :
    ((SetupLevels 5 s 10 2 (1/100) (1/500)).noIterationsPerLevel = [2, 4, 6, 8, 10] ∧
     (SetupLevels 5 s 10 2 (1/100) (1/500)).distThresh =
       [1/500, 1/250, 3/500, 1/125, 1/100]) ∧
    (∀ l, l < n →
      (SetupLevels n s numIterCoarse numIterFine distThreshCoarse
          distThreshFine).noIterationsPerLevel.get? l =
        some (cround ((numIterCoarse : ℚ) - ((n - 1 - l : ℕ) : ℚ) *
          (((numIterCoarse : ℚ) - (numIterFine : ℚ)) / ((n : ℚ) - 1))))) ∧
    (∀ l, l < n →
      (SetupLevels n s numIterCoarse numIterFine distThreshCoarse
          distThreshFine).distThresh.get? l =
        some (distThreshFine + (l : ℚ) *
          ((distThreshCoarse - distThreshFine) / ((n : ℚ) - 1)))) ∧
    (SetupLevels n s numIterCoarse numIterFine distThreshCoarse
        distThreshFine).noIterationsPerLevel.get? (n - 1) = some numIterCoarse ∧
    (SetupLevels n s numIterCoarse numIterFine distThreshCoarse
        distThreshFine).noIterationsPerLevel.get? 0 = some numIterFine ∧
    (SetupLevels n s numIterCoarse numIterFine distThreshCoarse
        distThreshFine).distThresh.get? (n - 1) = some distThreshCoarse ∧
    (SetupLevels n s numIterCoarse numIterFine distThreshCoarse
        distThreshFine).distThresh.get? 0 = some distThreshFine ∧
    (distThreshFine < distThreshCoarse → ∀ l, l + 1 < n →
      ∃ a b, (SetupLevels n s numIterCoarse numIterFine distThreshCoarse
          distThreshFine).distThresh.get? l = some a ∧
        (SetupLevels n s numIterCoarse numIterFine distThreshCoarse
          distThreshFine).distThresh.get? (l + 1) = some b ∧
        a < b ∧ b - a = (distThreshCoarse - distThreshFine) / ((n : ℚ) - 1)) := by
  have hnq : (2 : ℚ) ≤ (n : ℚ) := by exact_mod_cast hn
  have hn0 : ((n : ℚ) - 1) ≠ 0 := by linarith
  have hiter : ∀ l, l < n →
      (SetupLevels n s numIterCoarse numIterFine distThreshCoarse
          distThreshFine).noIterationsPerLevel.get? l =
        some (cround ((numIterCoarse : ℚ) - ((n - 1 - l : ℕ) : ℚ) *
          (((numIterCoarse : ℚ) - (numIterFine : ℚ)) / ((n : ℚ) - 1)))) := by
    intro l hl
    simp only [SetupLevels, if_pos (And.intro hic hfi)]
    rw [List.get?_map, setupLoopVals_get? _ n _ l hl]
    rfl
  have hcast : ∀ l, l < n → ((n - 1 - l : ℕ) : ℚ) = (n : ℚ) - 1 - (l : ℚ) := by
    intro l hl
    rw [Nat.cast_sub (by omega), Nat.cast_sub (by omega)]
    norm_num
  have hdist : ∀ l, l < n →
      (SetupLevels n s numIterCoarse numIterFine distThreshCoarse
          distThreshFine).distThresh.get? l =
        some (distThreshFine + (l : ℚ) *
          ((distThreshCoarse - distThreshFine) / ((n : ℚ) - 1))) := by
    intro l hl
    simp only [SetupLevels, if_pos (And.intro htc htf)]
    rw [setupLoopVals_get? _ n _ l hl]
    congr 1
    rw [hcast l hl]
    field_simp
    ring
  refine ⟨⟨?_, ?_⟩, hiter, hdist, ?_, ?_, ?_, ?_, ?_⟩
  · norm_num [SetupLevels, setupLoopVals, cround]
  · norm_num [SetupLevels, setupLoopVals]
  · rw [hiter (n - 1) (by omega)]
    have e0 : n - 1 - (n - 1) = 0 := by omega
    rw [e0]
    norm_num [cround_intCast]
  · rw [hiter 0 (by omega)]
    have e : (numIterCoarse : ℚ) - ((n - 1 - 0 : ℕ) : ℚ) *
        (((numIterCoarse : ℚ) - (numIterFine : ℚ)) / ((n : ℚ) - 1)) =
        ((numIterFine : ℤ) : ℚ) := by
      rw [hcast 0 (by omega)]
      field_simp
    rw [e, cround_intCast]
  · rw [hdist (n - 1) (by omega)]
    congr 1
    rw [Nat.cast_sub (by omega : 1 ≤ n)]
    push_cast
    field_simp
  · rw [hdist 0 (by omega)]
    norm_num
  · intro hlt l hl
    refine ⟨_, _, hdist l (by omega), hdist (l + 1) (by omega), ?_, ?_⟩
    · have hstep : 0 < (distThreshCoarse - distThreshFine) / ((n : ℚ) - 1) :=
        div_pos (by linarith) (by linarith)
      have hc : ((l + 1 : ℕ) : ℚ) = (l : ℚ) + 1 := by push_cast; ring
      rw [hc]
      nlinarith
    · have hc : ((l + 1 : ℕ) : ℚ) = (l : ℚ) + 1 := by push_cast; ring
      rw [hc]
      ring

/-- Witness for the amended claim C6: the concrete 5-level schedule. -/
theorem setupLevels_interpolated_witness :
    (SetupLevels 5 ⟨[0, 0, 0, 0, 0], [0, 0, 0, 0, 0]⟩ 10 2 (1/100)
        (1/500)).noIterationsPerLevel = [2, 4, 6, 8, 10] ∧
    (SetupLevels 5 ⟨[0, 0, 0, 0, 0], [0, 0, 0, 0, 0]⟩ 10 2 (1/100)
        (1/500)).distThresh = [1/500, 1/250, 3/500, 1/125, 1/100] :=
  (setupLevels_interpolated 5 ⟨[0, 0, 0, 0, 0], [0, 0, 0, 0, 0]⟩ 10 2 (1/100) (1/500)
    (by norm_num) (by norm_num) (by norm_num) (by norm_num) (by norm_num)).1

/-- Claim C10, counterexample: constructed with a single hierarchy level,
the tracker's only level receives the coarse distance threshold 0.01, not
the fine endpoint 0.002 the claim assigns to the finest level. -/
theorem construct_singleLevel_counterexample :
    (ITMDepthTracker_construct 1).distThresh = [1/100] ∧ (1/100 : ℚ) ≠ 1/500 := by
  refine ⟨?_, by norm_num⟩
  norm_num [ITMDepthTracker_construct, SetupLevels, setupLoopVals]

/-- Claim C10, amended: immediately after construction with `L ≥ 2`
hierarchy levels the schedules are those of
`SetupLevels(2*L, 2, 0.01, 0.002)`: level `l` holds iteration count
`2*l + 2` (so `2*L` at the coarsest level and 2 at level 0, decreasing by
the uniform integral step 2) and the linearly interpolated threshold from
0.01 at the coarsest level down to 0.002 at level 0; with a single level the
sole level receives iteration count 2 and the coarse threshold 0.01. -/
theorem construct_schedule_characterization (L : ℕ) (hL : 2 ≤ L) :
    (∀ l, l < L → (ITMDepthTracker_construct L).noIterationsPerLevel.get? l =
        some (2 * (l : ℤ) + 2)) ∧
    (∀ l, l < L → (ITMDepthTracker_construct L).distThresh.get? l =
        some (1/500 + (l : ℚ) * ((1/100 - 1/500) / ((L : ℚ) - 1)))) ∧
    (ITMDepthTracker_construct L).noIterationsPerLevel.get? (L - 1) =
      some (2 * (L : ℤ)) ∧
    (ITMDepthTracker_construct L).distThresh.get? (L - 1) = some (1/100) ∧
    (ITMDepthTracker_construct 1).noIterationsPerLevel = [2] ∧
    (ITMDepthTracker_construct 1).distThresh = [1/100] := by
  have hnq : (2 : ℚ) ≤ (L : ℚ) := by exact_mod_cast hL
  have hn0 : ((L : ℚ) - 1) ≠ 0 := by linarith
  have hcast : ∀ l, l < L → ((L - 1 - l : ℕ) : ℚ) = (L : ℚ) - 1 - (l : ℚ) := by
    intro l hl
    rw [Nat.cast_sub (by omega), Nat.cast_sub (by omega)]
    norm_num
  have hiter : ∀ l, l < L → (ITMDepthTracker_construct L).noIterationsPerLevel.get? l =
      some (2 * (l : ℤ) + 2) := by
    intro l hl
    unfold ITMDepthTracker_construct
    simp only [SetupLevels,
      if_pos (And.intro (by omega : 2 * (L : ℤ) ≠ -1) (by omega : (2 : ℤ) ≠ -1))]
    rw [List.get?_map, setupLoopVals_get? _ L _ l hl]
    have e : ((2 * (L : ℤ) : ℤ) : ℚ) - ((L - 1 - l : ℕ) : ℚ) *
        ((((2 * (L : ℤ) : ℤ) : ℚ) - ((2 : ℤ) : ℚ)) / ((L : ℚ) - 1)) =
        ((2 * (l : ℤ) + 2 : ℤ) : ℚ) := by
      rw [hcast l hl]
      push_cast
      field_simp
      ring
    rw [e, Option.map_some', cround_intCast]
  have hdist : ∀ l, l < L → (ITMDepthTracker_construct L).distThresh.get? l =
      some (1/500 + (l : ℚ) * ((1/100 - 1/500) / ((L : ℚ) - 1))) := by
    intro l hl
    unfold ITMDepthTracker_construct
    simp only [SetupLevels, if_pos (And.intro (by norm_num : (0:ℚ) ≤ 1/100)
      (by norm_num : (0:ℚ) ≤ 1/500))]
    rw [setupLoopVals_get? _ L _ l hl]
    congr 1
    rw [hcast l hl]
    field_simp
    ring
  refine ⟨hiter, hdist, ?_, ?_, ?_, ?_⟩
  · rw [hiter (L - 1) (by omega)]
    congr 2
    rw [Nat.cast_sub (by omega : 1 ≤ L)]
    push_cast
    ring
  · rw [hdist (L - 1) (by omega)]
    congr 1
    rw [Nat.cast_sub (by omega : 1 ≤ L)]
    push_cast
    field_simp
    ring
  · norm_num [ITMDepthTracker_construct, SetupLevels, setupLoopVals, cround]
  · norm_num [ITMDepthTracker_construct, SetupLevels, setupLoopVals]

/-- Witness for the amended claim C10: the coarsest of 5 levels starts with
10 iterations. -/
theorem construct_schedule_witness :
    (ITMDepthTracker_construct 5).noIterationsPerLevel.get? 4 = some 10 := by
  have h := (construct_schedule_characterization 5 (by norm_num)).1 4 (by norm_num)
  rw [h]
  norm_num

/-- A scene-hierarchy loop step keeps the list length. -/
theorem sceneStep_length {S : Type} (ss : List (ITMSceneHierarchyLevel S)) (i : ℕ) :
    (sceneStep ss i).length = ss.length := by
  unfold sceneStep
  rcases e1 : ss.get? (i - 1) with _ | prev <;> rcases e2 : ss.get? i with _ | cur <;>
    simp [e1, e2]

/-- A scene-hierarchy loop step only touches its own index. -/
theorem sceneStep_get?_ne {S : Type} (ss : List (ITMSceneHierarchyLevel S)) (i j : ℕ)
    (h : j ≠ i) : (sceneStep ss i).get? j = ss.get? j := by
  unfold sceneStep
  rcases e1 : ss.get? (i - 1) with _ | prev <;> rcases e2 : ss.get? i with _ | cur <;>
    simp [e1, e2]
  exact List.getElem?_set_ne (Ne.symm h)

/-- The reduction of a scene-hierarchy loop step when both the previous and
the current level exist. -/
theorem sceneStep_eq_set {S : Type} (ss : List (ITMSceneHierarchyLevel S)) (i : ℕ)
    (prev cur : ITMSceneHierarchyLevel S) (e1 : ss.get? (i - 1) = some prev)
    (e2 : ss.get? i = some cur) :
    sceneStep ss i =
      ss.set i { pointsMap := cur.pointsMap, normalsMap := cur.normalsMap,
                 intrinsics := fun k => prev.intrinsics k * (1/2) } := by
  unfold sceneStep
  rw [e1, e2]

theorem sceneStep_eq_of_none {S : Type} (ss : List (ITMSceneHierarchyLevel S)) (i : ℕ)
    (e1 : ss.get? (i - 1) = none) : sceneStep ss i = ss := by
  unfold sceneStep
  rw [e1]

theorem sceneStep_eq_of_none_cur {S : Type} (ss : List (ITMSceneHierarchyLevel S)) (i : ℕ)
    (e2 : ss.get? i = none) : sceneStep ss i = ss := by
  unfold sceneStep
  rcases e1 : ss.get? (i - 1) with _ | prev
  · rfl
  · rw [e2]

/-- A scene-hierarchy loop step never changes any level's point or normal
buffer. -/
theorem sceneStep_buffers {S : Type} (ss : List (ITMSceneHierarchyLevel S)) (i j : ℕ) :
    ((sceneStep ss i).get? j).map (fun lvl => (lvl.pointsMap, lvl.normalsMap)) =
      (ss.get? j).map (fun lvl => (lvl.pointsMap, lvl.normalsMap)) := by
  rcases eq_or_ne j i with rfl | h
  · rcases e1 : ss.get? (j - 1) with _ | prev
    · rw [sceneStep_eq_of_none ss j e1]
    · rcases e2 : ss.get? j with _ | cur
      · rw [sceneStep_eq_of_none_cur ss j e2, e2]
      · rw [sceneStep_eq_set _ _ prev cur e1 e2, List.get?_set_eq, e2]
        rfl
  · rw [sceneStep_get?_ne ss i j h]

/-- Folding scene-hierarchy steps keeps the list length. -/
theorem foldl_sceneStep_length {S : Type} :
    ∀ (idxs : List ℕ) (ss : List (ITMSceneHierarchyLevel S)),
      (idxs.foldl sceneStep ss).length = ss.length := by
  intro idxs
  induction idxs with
  | nil => intro ss; rfl
  | cons i t ih => intro ss; rw [List.foldl_cons, ih, sceneStep_length]

/-- Folding scene-hierarchy steps never changes any level's point or normal
buffer. -/
theorem foldl_sceneStep_buffers {S : Type} :
    ∀ (idxs : List ℕ) (ss : List (ITMSceneHierarchyLevel S)) (j : ℕ),
      ((idxs.foldl sceneStep ss).get? j).map (fun lvl => (lvl.pointsMap, lvl.normalsMap)) =
        (ss.get? j).map (fun lvl => (lvl.pointsMap, lvl.normalsMap)) := by
  intro idxs
  induction idxs with
  | nil => intro ss j; rfl
  | cons i t ih => intro ss j; rw [List.foldl_cons, ih, sceneStep_buffers]

/-- The scene component of `PrepareForEvaluation`'s combined fold is the
fold of the scene steps alone. -/
theorem prepare_foldl_snd {D S : Type} (filterSubsampleWithHoles : D → D) :
    ∀ (idxs : List ℕ) (vs : List (ITMTemplatedHierarchyLevel D))
      (ss : List (ITMSceneHierarchyLevel S)),
      (idxs.foldl
          (fun st i => (viewStep filterSubsampleWithHoles st.1 i, sceneStep st.2 i))
          (vs, ss)).2 =
        idxs.foldl sceneStep ss := by
  intro idxs
  induction idxs with
  | nil => intro vs ss; rfl
  | cons i t ih => intro vs ss; rw [List.foldl_cons, List.foldl_cons]; exact ih _ _

/-- The loop range of `PrepareForEvaluation`, split at its last index. -/
theorem range'_one_concat (m : ℕ) :
    List.range' 1 (m + 1) = List.range' 1 m ++ [m + 1] := by
  have e : 1 + 1 * m = m + 1 := by omega
  rw [List.range'_concat, e]

/-- After the scene loop, every rebuilt level's intrinsics are half of the
preceding level's: level `i` is written exactly once, at step `i`, reading
level `i - 1` after that level has already been finalized. -/
theorem foldl_sceneStep_halving {S : Type} :
    ∀ (m : ℕ) (ss : List (ITMSceneHierarchyLevel S)) (i : ℕ),
      1 ≤ i → i ≤ m → i < ss.length →
      (((List.range' 1 m).foldl sceneStep ss).get? i).map (fun lvl => lvl.intrinsics) =
        (((List.range' 1 m).foldl sceneStep ss).get? (i - 1)).map
          (fun lvl => fun k => lvl.intrinsics k * (1/2)) := by
  intro m
  induction m with
  | zero => intro ss i h1 h2 h3; omega
  | succ m ih =>
      intro ss i h1 h2 h3
      rw [range'_one_concat, List.foldl_append]
      rw [show ∀ a : List (ITMSceneHierarchyLevel S),
            [m + 1].foldl sceneStep a = sceneStep a (m + 1) from fun a => rfl]
      rcases Nat.lt_or_ge i (m + 1) with hlt | hge
      · have him : i ≤ m := by omega
        rw [sceneStep_get?_ne _ _ _ (by omega), sceneStep_get?_ne _ _ _ (by omega)]
        exact ih ss i h1 him h3
      · have hieq : i = m + 1 := by omega
        subst hieq
        have hFlen : ((List.range' 1 m).foldl sceneStep ss).length = ss.length :=
          foldl_sceneStep_length _ _
        rcases e1 : ((List.range' 1 m).foldl sceneStep ss).get? (m + 1 - 1) with _ | prev
        · exfalso
          rw [List.get?_eq_none] at e1
          omega
        · rcases e2 : ((List.range' 1 m).foldl sceneStep ss).get? (m + 1) with _ | cur
          · exfalso
            rw [List.get?_eq_none] at e2
            omega
          · rw [sceneStep_eq_set _ _ prev cur e1 e2]
            rw [List.get?_set_eq, e2,
              List.get?_set_ne _ _ (by omega : m + 1 ≠ m + 1 - 1), e1]
            rfl

/-- The reduction of `SetEvaluationParams` when both hierarchy levels
exist. -/
theorem SetEvaluationParams_eq {D S : Type} (vs : List (ITMTemplatedHierarchyLevel D))
    (ss : List (ITMSceneHierarchyLevel S)) (levelId : ℕ)
    (vl : ITMTemplatedHierarchyLevel D) (s0 : ITMSceneHierarchyLevel S)
    (e1 : vs.get? levelId = some vl) (e2 : ss.get? 0 = some s0) :
    SetEvaluationParams vs ss levelId =
      some { levelId := levelId, iterationType := vl.iterationType,
             sceneHierarchyLevel := s0, viewHierarchyLevel := vl } := by
  unfold SetEvaluationParams
  rw [e1, e2]

/-- Claim C9: the scene data bound for evaluation is scene hierarchy level
0 — `SetEvaluationParams` selects `sceneHierarchy->levels[0]` regardless of
`levelId` — and `PrepareForEvaluation` never downsamples the scene points or
normals (every level's buffers are exactly the originals); only the scene
intrinsics are halved per level. -/
theorem sceneHierarchy_levelZero_binding {D S : Type}
    (filterSubsampleWithHoles : D → D) (vs : List (ITMTemplatedHierarchyLevel D))
    (ss : List (ITMSceneHierarchyLevel S)) :
    (∀ levelId p, SetEvaluationParams vs ss levelId = some p →
      ss.get? 0 = some p.sceneHierarchyLevel) ∧
    (∀ j, (((PrepareForEvaluation filterSubsampleWithHoles vs ss).2.get? j).map
        (fun lvl => (lvl.pointsMap, lvl.normalsMap))) =
      ((ss.get? j).map (fun lvl => (lvl.pointsMap, lvl.normalsMap)))) ∧
    (∀ i, 1 ≤ i → i ≤ vs.length - 1 → i < ss.length →
      (((PrepareForEvaluation filterSubsampleWithHoles vs ss).2.get? i).map
          (fun lvl => lvl.intrinsics)) =
        (((PrepareForEvaluation filterSubsampleWithHoles vs ss).2.get? (i - 1)).map
          (fun lvl => fun k => lvl.intrinsics k * (1/2)))) := by
  refine ⟨?_, ?_, ?_⟩
  · intro levelId p h
    rcases e1 : vs.get? levelId with _ | vl
    · unfold SetEvaluationParams at h
      rw [e1] at h
      simp at h
    · rcases e2 : ss.get? 0 with _ | s0
      · unfold SetEvaluationParams at h
        rw [e1, e2] at h
        simp at h
      · rw [SetEvaluationParams_eq vs ss levelId vl s0 e1 e2] at h
        obtain rfl := (Option.some.injEq _ _).mp h
        rfl
  · intro j
    unfold PrepareForEvaluation
    rw [prepare_foldl_snd, foldl_sceneStep_buffers]
  · intro i h1 h2 h3
    unfold PrepareForEvaluation
    rw [prepare_foldl_snd]
    exact foldl_sceneStep_halving (vs.length - 1) ss i h1 h2 h3

/-- Witness for claim C9 on a concrete two-level hierarchy. -/
theorem sceneHierarchy_levelZero_binding_witness :
    (([⟨10, 20, fun _ => 8⟩, ⟨11, 21, fun _ => 9⟩] :
        List (ITMSceneHierarchyLevel ℕ)).get? 0 =
      some (({ levelId := 1, iterationType := TRACKER_ITERATION_ROTATION,
               sceneHierarchyLevel := ⟨10, 20, fun _ => 8⟩,
               viewHierarchyLevel := ⟨5, fun _ => 2, TRACKER_ITERATION_ROTATION⟩ } :
          EvalParams ℕ ℕ).sceneHierarchyLevel)) ∧
    (((PrepareForEvaluation (fun d : ℕ => d + 1)
          [⟨0, fun _ => 4, TRACKER_ITERATION_BOTH⟩,
           ⟨5, fun _ => 2, TRACKER_ITERATION_ROTATION⟩]
          ([⟨10, 20, fun _ => 8⟩, ⟨11, 21, fun _ => 9⟩] :
            List (ITMSceneHierarchyLevel ℕ))).2.get? 1).map
        (fun lvl => lvl.intrinsics)) =
      (((PrepareForEvaluation (fun d : ℕ => d + 1)
          [⟨0, fun _ => 4, TRACKER_ITERATION_BOTH⟩,
           ⟨5, fun _ => 2, TRACKER_ITERATION_ROTATION⟩]
          ([⟨10, 20, fun _ => 8⟩, ⟨11, 21, fun _ => 9⟩] :
            List (ITMSceneHierarchyLevel ℕ))).2.get? 0).map
        (fun lvl => fun k => lvl.intrinsics k * (1/2))) := by
  constructor
  · exact (sceneHierarchy_levelZero_binding (fun d : ℕ => d + 1)
      [⟨0, fun _ => 4, TRACKER_ITERATION_BOTH⟩,
       ⟨5, fun _ => 2, TRACKER_ITERATION_ROTATION⟩]
      [⟨10, 20, fun _ => 8⟩, ⟨11, 21, fun _ => 9⟩]).1 1
      { levelId := 1, iterationType := TRACKER_ITERATION_ROTATION,
        sceneHierarchyLevel := ⟨10, 20, fun _ => 8⟩,
        viewHierarchyLevel := ⟨5, fun _ => 2, TRACKER_ITERATION_ROTATION⟩ } rfl
  · exact (sceneHierarchy_levelZero_binding (fun d : ℕ => d + 1)
      [⟨0, fun _ => 4, TRACKER_ITERATION_BOTH⟩,
       ⟨5, fun _ => 2, TRACKER_ITERATION_ROTATION⟩]
      [⟨10, 20, fun _ => 8⟩, ⟨11, 21, fun _ => 9⟩]).2.2 1
      (by norm_num) (by norm_num) (by norm_num)

end InfiniTAM
